import Mathlib

/-!
Verification development for the `down3dtiles` tiles downloader
(`download_3dtiles.py`).  The Python source is shallowly embedded below:
pure path / URL computations become Lean functions over `String`
(represented through its `data : List Char` field), the stateful
download traversal becomes explicit state passing with a fuel bound on
the (in Python unbounded) mutual recursion, and the HTTP layer becomes
an oracle `Net` mapping (url, attempt-index) to an optional response
body.  Filesystem contents are an association list from path strings to
content strings; Python `bytes`/`str` contents are both modelled as
`String`.
-/

/-! ## JSON values (the manifest document schema)

Python's `json` module is modelled on the subset the manifests use:
`null`, booleans, integers, strings (without `\u` escapes), arrays and
objects.  Floats and duplicate object keys are outside the modelled
subset.  Arrays and objects use dedicated mutual inductives (`PyArr`,
`PyObj`) instead of nested `List`s so that all recursions over them are
structural. -/

mutual

inductive PyJson where
  | null : PyJson
  | bool (b : Bool) : PyJson
  | int (n : Int) : PyJson
  | str (s : String) : PyJson
  | arr (xs : PyArr) : PyJson
  | obj (kvs : PyObj) : PyJson

inductive PyArr where
  | nil : PyArr
  | cons (hd : PyJson) (tl : PyArr) : PyArr

inductive PyObj where
  | nil : PyObj
  | cons (k : String) (v : PyJson) (tl : PyObj) : PyObj

end

/-- Key lookup in a parsed JSON object: Python `d[k]` / `k in d`
(first binding wins; the modelled subset has no duplicate keys). -/
def objLookup : PyObj → String → Option PyJson
  | PyObj.nil, _ => none
  | PyObj.cons k v tl, q => if k = q then some v else objLookup tl q

/-! ## Embeddings of the Python string/path primitives used by the source -/

theorem strExt (a b : String) (h : a.data = b.data) : a = b := by
  cases a
  cases b
  exact congrArg String.mk h

theorem strDataAppend (a b : String) : (a ++ b).data = a.data ++ b.data := rfl

/-- Python `s.endswith(t)` (suffix test). -/
def pyEndsWith (s t : String) : Bool := t.data.isSuffixOf s.data

/-- Python `s.startswith(t)` (prefix test). -/
def pyStartsWith (s t : String) : Bool := t.data.isPrefixOf s.data

/-- Python `str.split('/')` on the character list: split on every `'/'`,
keeping empty components (no run merging). -/
def splitCharsOnSlash : List Char → List (List Char)
  | [] => [[]]
  | c :: cs =>
    let r := splitCharsOnSlash cs
    if c = '/' then [] :: r
    else
      match r with
      | [] => [[c]]
      | h :: t => (c :: h) :: t

/-- Python `url.split('/')`. -/
def pySplitSlash (s : String) : List String :=
  (splitCharsOnSlash s.data).map String.mk

/-- Python `p[p.rfind('/')+1:]`, i.e. `os.path.basename` for POSIX paths:
the characters after the last `'/'`. -/
def afterLastSlash : List Char → List Char
  | [] => []
  | c :: cs =>
    if ('/' : Char) ∈ cs then afterLastSlash cs
    else if c = '/' then cs
    else c :: cs

/-- Python `os.path.basename` (posixpath). -/
def pyBasename (s : String) : String := String.mk (afterLastSlash s.data)

/-- Python `p[:p.rfind('/')+1]`: the prefix of the path up to and
including the last `'/'` (empty when there is no slash). -/
def beforeLastSlash : List Char → List Char
  | [] => []
  | c :: cs =>
    if ('/' : Char) ∈ cs then c :: beforeLastSlash cs
    else if c = '/' then ['/']
    else []

/-- Python `s.rstrip('/')` on a character list. -/
def rstripSlashes (l : List Char) : List Char :=
  (l.reverse.dropWhile (fun c => c = '/')).reverse

/-- Python `os.path.dirname` (posixpath): head of the path up to the last
slash, with trailing slashes stripped unless the head is all slashes. -/
def pyDirname (s : String) : String :=
  let head := beforeLastSlash s.data
  if head.all (fun c => c = '/') then String.mk head
  else String.mk (rstripSlashes head)

/-- Python `os.path.join(a, b)` (posixpath, two components): an absolute
`b` discards `a`; otherwise a separator is inserted unless `a` is empty
or already ends with one. -/
def pyJoin (a b : String) : String :=
  if b.data.head? = some '/' then b
  else if a.data = [] ∨ a.data.getLast? = some '/' then a ++ b
  else a ++ ("/") ++ b

/-- `TilesDownloader.__init__` strips trailing slashes from the base URL
(`base_url.rstrip('/')`). -/
def mkBaseUrl (s : String) : String := String.mk (rstripSlashes s.data)

/-! ## Configuration and URL / local-path resolution -/

/-- The downloader's run-constant fields: `self.base_url` (already
`rstrip('/')`-ed) and `self.output_dir` (set by `process_tileset`).
The fixed HTTP header dictionary has no observable effect in the model
and is abstracted into the network oracle. -/
structure TilesCfg where
  base : String
  output_dir : String

/-- `download_file` lines 31-39: full URL construction.  `parent_folder`
is a Python string whose truthiness is non-emptiness (the `None` default
is modelled as `""`; every call site passes a string).  The
`url.startswith('Data/')` branch and the final fallback are kept
separate exactly as in the source even though their bodies coincide. -/
def full_url_of (base parent_folder url : String) : String :=
  if parent_folder ≠ ("") then base ++ ("/Data/") ++ parent_folder ++ ("/") ++ url
  else if pyStartsWith url ("Data/") then base ++ ("/") ++ url
  else base ++ ("/") ++ url

/-- `extract_urls_from_node` lines 97-105: local destination of a
referenced asset.  For a `.json` reference the folder is
`url.split('/')[1]` when the url contains a slash (the index is in
bounds exactly then), else `parent_folder`; destination is
`os.path.join(output_dir, 'Data', tile_folder, basename(url))`.
Otherwise the destination is `os.path.join(base_path, url)`. -/
def local_path_for (output_dir base_path parent_folder url : String) : String :=
  if pyEndsWith url (".json") then
    let tile_folder :=
      if url.data.contains '/' then (pySplitSlash url).getD 1 ("") else parent_folder
    pyJoin (pyJoin (pyJoin output_dir ("Data")) tile_folder) (pyBasename url)
  else pyJoin base_path url

/-- Rule A of the spec, as amended: the tile folder is the element at
index 1 (the second component) of the reference split on `/`, falling
back to `parent_folder` when the reference has no slash. -/
def specTileFolder (parent_folder url : String) : String :=
  if url.data.contains '/' then (pySplitSlash url).getD 1 ("") else parent_folder

/-! ## Python `json.loads` on the modelled subset

A fuel-indexed recursive-descent parser over `List Char`.  Whitespace,
strings (with the common escapes), integers, `true`/`false`/`null`,
arrays and objects follow Python's strict JSON syntax; floats and
`\u` escapes are outside the modelled subset and are rejected. -/

def jsonWs (c : Char) : Bool := c = ' ' || c = '\t' || c = '\n' || c = '\r'

def skipWs (l : List Char) : List Char := l.dropWhile jsonWs

/-- Body of a JSON string literal after the opening quote: returns the
decoded characters and the input after the closing quote. -/
def parseStringBody : List Char → Option (List Char × List Char)
  | [] => none
  | '"' :: rest => some ([], rest)
  | '\\' :: c :: rest =>
    let esc : Option Char :=
      if c = '"' then some '"'
      else if c = '\\' then some '\\'
      else if c = '/' then some '/'
      else if c = 'n' then some '\n'
      else if c = 't' then some '\t'
      else if c = 'r' then some '\r'
      else none
    match esc, parseStringBody rest with
    | some e, some (cs, r) => some (e :: cs, r)
    | _, _ => none
  | c :: rest =>
    if c.toNat < 32 then none
    else
      match parseStringBody rest with
      | some (cs, r) => some (c :: cs, r)
      | none => none

/-- A JSON integer token: optional minus sign, digits, no leading zeros,
and not followed by a fraction/exponent (floats are outside the subset). -/
def parseIntToken (l : List Char) : Option (Int × List Char) :=
  let (neg, l1) : Bool × List Char :=
    match l with
    | '-' :: rest => (true, rest)
    | _ => (false, l)
  let digits := l1.takeWhile (fun c => c.isDigit)
  let rest := l1.dropWhile (fun c => c.isDigit)
  if digits = [] then none
  else if digits.head? = some '0' ∧ digits.length > 1 then none
  else
    match rest with
    | '.' :: _ => none
    | 'e' :: _ => none
    | 'E' :: _ => none
    | _ =>
      let n : Int := Int.ofNat (digits.foldl (fun a c => a * 10 + (c.toNat - 48)) 0)
      some (if neg then -n else n, rest)

mutual

def parseValue : Nat → List Char → Option (PyJson × List Char)
  | 0, _ => none
  | fuel + 1, l =>
    match skipWs l with
    | '"' :: rest =>
      match parseStringBody rest with
      | some (cs, r) => some (PyJson.str (String.mk cs), r)
      | none => none
    | '[' :: rest =>
      match skipWs rest with
      | ']' :: r2 => some (PyJson.arr PyArr.nil, r2)
      | l2 =>
        match parseElems fuel l2 with
        | some (xs, r) => some (PyJson.arr xs, r)
        | none => none
    | '\x7b' :: rest =>
      match skipWs rest with
      | '\x7d' :: r2 => some (PyJson.obj PyObj.nil, r2)
      | l2 =>
        match parseMembers fuel l2 with
        | some (kvs, r) => some (PyJson.obj kvs, r)
        | none => none
    | 't' :: 'r' :: 'u' :: 'e' :: rest => some (PyJson.bool true, rest)
    | 'f' :: 'a' :: 'l' :: 's' :: 'e' :: rest => some (PyJson.bool false, rest)
    | 'n' :: 'u' :: 'l' :: 'l' :: rest => some (PyJson.null, rest)
    | l1 =>
      match parseIntToken l1 with
      | some (n, r) => some (PyJson.int n, r)
      | none => none

def parseElems : Nat → List Char → Option (PyArr × List Char)
  | 0, _ => none
  | fuel + 1, l =>
    match parseValue fuel l with
    | none => none
    | some (v, r1) =>
      match skipWs r1 with
      | ',' :: r2 =>
        match parseElems fuel r2 with
        | some (xs, r) => some (PyArr.cons v xs, r)
        | none => none
      | ']' :: r2 => some (PyArr.cons v PyArr.nil, r2)
      | _ => none

def parseMembers : Nat → List Char → Option (PyObj × List Char)
  | 0, _ => none
  | fuel + 1, l =>
    match skipWs l with
    | '"' :: rest =>
      match parseStringBody rest with
      | none => none
      | some (key, r1) =>
        match skipWs r1 with
        | ':' :: r2 =>
          match parseValue fuel r2 with
          | none => none
          | some (v, r3) =>
            match skipWs r3 with
            | ',' :: r4 =>
              match parseMembers fuel r4 with
              | some (kvs, r) => some (PyObj.cons (String.mk key) v kvs, r)
              | none => none
            | '\x7d' :: r4 => some (PyObj.cons (String.mk key) v PyObj.nil, r4)
            | _ => none
        | _ => none
    | _ => none

end

/-- Python `json.loads` / `json.load`: parse one document, allowing
surrounding whitespace, rejecting trailing garbage.  The fuel is an
upper bound on recursive-descent depth, generous for any input of the
given length. -/
def pyJsonLoads (s : String) : Option PyJson :=
  match parseValue (4 * (s.data.length + 1)) s.data with
  | some (v, rest) => if skipWs rest = [] then some v else none
  | none => none

/-! ## Python `json.dumps` (default formatting) on the modelled subset -/

def escapeChar (c : Char) : List Char :=
  if c = '"' then ['\\', '"']
  else if c = '\\' then ['\\', '\\']
  else if c = '\n' then ['\\', 'n']
  else if c = '\t' then ['\\', 't']
  else if c = '\r' then ['\\', 'r']
  else [c]

def pyDumpString (s : String) : String :=
  String.mk ('"' :: (s.data.foldr (fun c acc => escapeChar c ++ acc) []) ++ ['"'])

mutual

/-- `json.dump(data, f)` with default separators `', '` and `': '`,
no indent. -/
def pyJsonDumps : PyJson → String
  | PyJson.null => ("null")
  | PyJson.bool true => ("true")
  | PyJson.bool false => ("false")
  | PyJson.int n => toString n
  | PyJson.str s => pyDumpString s
  | PyJson.arr PyArr.nil => ("[]")
  | PyJson.arr xs => ("[") ++ dumpsArr xs ++ ("]")
  | PyJson.obj PyObj.nil => ("\x7b\x7d")
  | PyJson.obj kvs => ("\x7b") ++ dumpsObj kvs ++ ("\x7d")

def dumpsArr : PyArr → String
  | PyArr.nil => ("")
  | PyArr.cons x PyArr.nil => pyJsonDumps x
  | PyArr.cons x (PyArr.cons y tl) => pyJsonDumps x ++ (", ") ++ dumpsArr (PyArr.cons y tl)

def dumpsObj : PyObj → String
  | PyObj.nil => ("")
  | PyObj.cons k v PyObj.nil => pyDumpString k ++ (": ") ++ pyJsonDumps v
  | PyObj.cons k v (PyObj.cons k2 v2 tl) =>
    pyDumpString k ++ (": ") ++ pyJsonDumps v ++ (", ") ++ dumpsObj (PyObj.cons k2 v2 tl)

end

/-! ## Downloader state and network oracle -/

/-- The HTTP layer: `net url attempt` is the response body of the
`attempt`-th `requests.get(url, headers)` call (attempts are numbered
from 0 within one retry loop), or `none` for a transport failure /
non-2xx status (which `raise_for_status` turns into an exception). -/
abbrev Net := String → Nat → Option String

/-- Observable state of one `TilesDownloader` run:
`downloaded_files` is `self.downloaded_files`; `fs` is the local
filesystem as an association list (later writes shadow earlier ones);
`requests` is the trace of every HTTP GET issued (one entry per
attempt); `writes` is the trace of file writes performed by
`download_file` (the fetcher), in order. -/
structure DlState where
  downloaded_files : List String
  fs : List (String × String)
  requests : List String
  writes : List String

def fsRead : List (String × String) → String → Option String
  | [], _ => none
  | (p, c) :: rest, q => if p = q then some c else fsRead rest q

/-- `download_file` lines 44-54: up to `max_retries = 3` attempts; the
result is the first successful body together with the number of attempts
actually issued; after the third failure the exception propagates.
The 1-second `time.sleep` between attempts has no observable effect in
the model. -/
def tryGetTrace (net : Net) (u : String) : Nat × Option String :=
  match net u 0 with
  | some c => (1, some c)
  | none =>
    match net u 1 with
    | some c => (2, some c)
    | none =>
      match net u 2 with
      | some c => (3, some c)
      | none => (3, none)

/-- `extract_urls_from_node` line 93-94: `'content' in node and 'url' in
node['content']`, then `node['content']['url']`.  Non-object nodes,
non-object `content` values and non-string `url` values are modelled as
"no content reference". -/
def nodeUrl : PyJson → Option String
  | PyJson.obj kvs =>
    match objLookup kvs ("content") with
    | some (PyJson.obj ckvs) =>
      match objLookup ckvs ("url") with
      | some (PyJson.str u) => some u
      | _ => none
    | _ => none
  | _ => none

/-- `extract_urls_from_node` lines 111-113: the `children` list of a
node (`'children' in node`), empty when absent or not an array. -/
def nodeChildrenArr : PyJson → PyArr
  | PyJson.obj kvs =>
    match objLookup kvs ("children") with
    | some (PyJson.arr cs) => cs
    | _ => PyArr.nil
  | _ => PyArr.nil

/-! ## The mutually recursive traversal

`download_file`, `process_json_file` and `extract_urls_from_node`
(plus the `for child in node['children']` loop as `processChildren`)
form the Walker/Fetcher mutual recursion, which Python runs with an
unbounded call stack.  The embedding bounds it with `fuel`, decremented
at every mutual call; `fuel = 0` truncates the recursion (returning the
state unchanged / a failed result), so any theorem about a run
instantiates `fuel` large enough or holds for all `fuel`.  The
`downloaded_files` short-circuit of `download_file` needs no recursion
and is available at every fuel. -/

mutual

/-- `download_file(self, url, save_path, parent_folder)` (lines 18-74).
Returns the Python boolean result and the updated state.  On success the
response body is written to `save_path` (`os.makedirs` + `open` are
modelled as an always-succeeding filesystem insert), `save_path` is
added to `downloaded_files`, and a `.json` url is handed to
`process_json_file`.  All exceptions of the body are caught by the
outer `except`, which returns `False`. -/
def download_file (cfg : TilesCfg) (net : Net) :
    Nat → String → String → String → DlState → Bool × DlState
  | 0, _, save_path, _, st =>
    if save_path ∈ st.downloaded_files then (true, st) else (false, st)
  | fuel + 1, url, save_path, parent_folder, st =>
    if save_path ∈ st.downloaded_files then (true, st)
    else
      let full_url := full_url_of cfg.base parent_folder url
      match tryGetTrace net full_url with
      | (n, none) => (false, { st with requests := st.requests ++ List.replicate n full_url })
      | (n, some content) =>
        let st2 : DlState :=
          { st with
            requests := st.requests ++ List.replicate n full_url
            fs := (save_path, content) :: st.fs
            downloaded_files := save_path :: st.downloaded_files
            writes := st.writes ++ [save_path] }
        if pyEndsWith url (".json") then (true, process_json_file cfg net fuel save_path st2)
        else (true, st2)

/-- `process_json_file(self, json_path)` (lines 76-89): read and parse
the freshly written manifest, compute `parent_folder =
basename(dirname(json_path))`, and walk its `root` node.  Every
exception (unreadable file, malformed JSON, a non-dict document making
`data.get` raise) is caught, aborting only this manifest's subtree. -/
def process_json_file (cfg : TilesCfg) (net : Net) : Nat → String → DlState → DlState
  | 0, _, st => st
  | fuel + 1, json_path, st =>
    match fsRead st.fs json_path with
    | none => st
    | some content =>
      match pyJsonLoads content with
      | none => st
      | some data =>
        match data with
        | PyJson.obj kvs =>
          extract_urls_from_node cfg net fuel
            ((objLookup kvs ("root")).getD (PyJson.obj PyObj.nil))
            (pyDirname json_path) (pyBasename (pyDirname json_path)) st
        | _ => st

/-- `extract_urls_from_node(self, node, base_path, parent_folder)`
(lines 91-113): download the node's own content reference (if any) to
`local_path_for`, then recurse into the children with the same
`base_path` and `parent_folder`. -/
def extract_urls_from_node (cfg : TilesCfg) (net : Net) :
    Nat → PyJson → String → String → DlState → DlState
  | 0, _, _, _, st => st
  | fuel + 1, node, base_path, parent_folder, st =>
    let st1 :=
      match nodeUrl node with
      | some url =>
        (download_file cfg net fuel url
          (local_path_for cfg.output_dir base_path parent_folder url) parent_folder st).2
      | none => st
    processChildren cfg net fuel (nodeChildrenArr node) base_path parent_folder st1

/-- The `for child in node['children']` loop of
`extract_urls_from_node`, threading the state left to right. -/
def processChildren (cfg : TilesCfg) (net : Net) :
    Nat → PyArr → String → String → DlState → DlState
  | 0, _, _, _, st => st
  | _ + 1, PyArr.nil, _, _, st => st
  | fuel + 1, PyArr.cons c cs, base_path, parent_folder, st =>
    processChildren cfg net fuel cs base_path parent_folder
      (extract_urls_from_node cfg net fuel c base_path parent_folder st)

end

/-- `process_tileset(self, tileset_path, base_path)` (lines 115-134):
set `output_dir`, read and parse the local root manifest, write
`json.dump` of the parsed document to `base_path/tileset.json` (a direct
write, not routed through `download_file`, hence recorded in `fs` only),
then walk the root node with `base_path` as base path and `''` as parent
folder.  Read/parse failures are caught before the copy is written; a
non-dict document makes `data.get` raise after the copy. -/
def process_tileset (base : String) (net : Net) (fuel : Nat)
    (tileset_path base_path : String) (st : DlState) : DlState :=
  match fsRead st.fs tileset_path with
  | none => st
  | some content =>
    match pyJsonLoads content with
    | none => st
    | some data =>
      let st1 : DlState :=
        { st with fs := (pyJoin base_path ("tileset.json"), pyJsonDumps data) :: st.fs }
      match data with
      | PyJson.obj kvs =>
        extract_urls_from_node { base := base, output_dir := base_path } net fuel
          ((objLookup kvs ("root")).getD (PyJson.obj PyObj.nil)) base_path ("") st1
      | _ => st1

/-- The `root` node of a parsed manifest document:
`data.get('root', dict())` when the document is a dict. -/
def rootOf : PyJson → PyJson
  | PyJson.obj kvs => (objLookup kvs ("root")).getD (PyJson.obj PyObj.nil)
  | _ => PyJson.obj PyObj.nil

/-! ## Derived notions used by the theorems -/

/-- A manifest node with content reference `url` and children `cs`. -/
def mkNode (url : String) (cs : PyArr) : PyJson :=
  PyJson.obj (PyObj.cons ("content") (PyJson.obj (PyObj.cons ("url") (PyJson.str url) PyObj.nil))
    (PyObj.cons ("children") (PyJson.arr cs) PyObj.nil))

/-- A network on which every request fails. -/
def netNone : Net := fun _ _ => none

mutual

/-- All content references reachable in a node tree within the given
recursion bound, mirroring the fuel flow of `extract_urls_from_node` /
`processChildren`. -/
def refsOf : Nat → PyJson → List String
  | 0, _ => []
  | fuel + 1, node =>
    (match nodeUrl node with
     | some u => [u]
     | none => []) ++ refsOfArr fuel (nodeChildrenArr node)

/-- Companion of `refsOf` for children lists. -/
def refsOfArr : Nat → PyArr → List String
  | 0, _ => []
  | _ + 1, PyArr.nil => []
  | fuel + 1, PyArr.cons c cs => refsOf fuel c ++ refsOfArr fuel cs

end

/-- The run-wide fetcher invariant of the spec: each local path is
written at most once, and every written path is recorded in
`downloaded_files`. -/
def FetchInv (st : DlState) : Prop :=
  st.writes.Nodup ∧ ∀ p, p ∈ st.writes → p ∈ st.downloaded_files

/-- The empty initial run state. -/
def stEmpty : DlState := ⟨[], [], [], []⟩

/-- A network that fails the first attempt and then serves a body that
is not parseable JSON (used to exercise retry and subtree failure). -/
def netFlaky : Net := fun _ a => if a = 1 then some ("not-json") else none

/-- Root manifest text with a single binary content reference. -/
def tsContent : String := ("\x7b\"root\": \x7b\"content\": \x7b\"url\": \"a.b3dm\"\x7d\x7d\x7d")

/-- The parsed form of `tsContent`. -/
def tsData : PyJson :=
  PyJson.obj (PyObj.cons ("root")
    (PyJson.obj (PyObj.cons ("content")
      (PyJson.obj (PyObj.cons ("url") (PyJson.str ("a.b3dm")) PyObj.nil)) PyObj.nil))
    PyObj.nil)

/-- A run state whose local disk holds `tsContent` at `ts.json`. -/
def stTs : DlState := ⟨[], [(("ts.json"), tsContent)], [], []⟩

/-- A network serving exactly the one binary tile of `tsContent`. -/
def netA : Net := fun u _ => if u = ("http://e/a.b3dm") then some ("BYTES") else none

/-! ## Helper lemmas -/

theorem strNeNil (s : String) (h : s ≠ ("")) : s.data ≠ [] := by
  intro hd
  exact h (strExt s ("") (by rw [hd]))

/-- `os.path.join` inserts exactly one separator in the regular case. -/
theorem pyJoin_norm (a b : String) (ha1 : a.data ≠ []) (ha2 : a.data.getLast? ≠ some '/')
    (hb : b.data.head? ≠ some '/') : pyJoin a b = a ++ ("/") ++ b := by
  have hcond : ¬(a.data = [] ∨ a.data.getLast? = some '/') := by
    rintro (h | h)
    · exact ha1 h
    · exact ha2 h
  simp only [pyJoin, if_neg hb, if_neg hcond]

/-- The three-component join performed by Rule A, normalised to plain
string concatenation under the expected side conditions. -/
theorem pyJoin_chain (out tf bn : String)
    (h1 : out.data ≠ []) (h2 : out.data.getLast? ≠ some '/')
    (h3 : tf.data ≠ []) (h4 : tf.data.head? ≠ some '/') (h5 : tf.data.getLast? ≠ some '/')
    (h6 : bn.data.head? ≠ some '/') :
    pyJoin (pyJoin (pyJoin out ("Data")) tf) bn
      = out ++ ("/Data/") ++ tf ++ ("/") ++ bn := by
  have e1 : pyJoin out ("Data") = out ++ ("/") ++ ("Data") := pyJoin_norm _ _ h1 h2 (by decide)
  have hDdata : (("Data") : String).data = ['D', 'a', 't', 'a'] := rfl
  have hA1 : (out ++ ("/") ++ ("Data")).data ≠ [] := by
    simp [strDataAppend, hDdata]
  have hA2 : (out ++ ("/") ++ ("Data")).data.getLast? = some 'a' := by
    rw [strDataAppend, List.getLast?_append_of_ne_nil _ (by rw [hDdata]; simp)]
    rfl
  have e2 : pyJoin (out ++ ("/") ++ ("Data")) tf
      = out ++ ("/") ++ ("Data") ++ ("/") ++ tf :=
    pyJoin_norm _ _ hA1 (by rw [hA2]; simp) h4
  have hB1 : (out ++ ("/") ++ ("Data") ++ ("/") ++ tf).data ≠ [] := by
    intro hnil
    rw [strDataAppend] at hnil
    rcases List.append_eq_nil.mp hnil with ⟨-, h⟩
    exact h3 h
  have hB2 : (out ++ ("/") ++ ("Data") ++ ("/") ++ tf).data.getLast? = tf.data.getLast? := by
    rw [strDataAppend, List.getLast?_append_of_ne_nil _ h3]
  have e3 : pyJoin (out ++ ("/") ++ ("Data") ++ ("/") ++ tf) bn
      = out ++ ("/") ++ ("Data") ++ ("/") ++ tf ++ ("/") ++ bn :=
    pyJoin_norm _ _ hB1 (by rw [hB2]; exact h5) h6
  rw [e1, e2, e3]
  apply strExt
  have hS : (("/") : String).data = ['/'] := rfl
  have hDs : (("/Data/") : String).data = ['/', 'D', 'a', 't', 'a', '/'] := rfl
  simp [strDataAppend, hS, hDs, hDdata, List.append_assoc]

/-! ## Claim theorems -/

/-- C1 counterexample: for reference `Tile_7/x.json` the claim's rule
("tileFolder is the first path segment", here `Tile_7`) prescribes
destination `out/Data/Tile_7/x.json`, but the Walker computes
`url.split('/')[1] = x.json` and yields `out/Data/x.json/x.json`. -/
theorem C1_counterexample :
    local_path_for ("out") ("bp") ("p") ("Tile_7/x.json") = ("out/Data/x.json/x.json")
    ∧ local_path_for ("out") ("bp") ("p") ("Tile_7/x.json") ≠ ("out/Data/Tile_7/x.json") := by
  exact ⟨by decide, by decide⟩

/-- C1 (amended): for a reference ending in `.json` the Walker's tile
folder is the component at index 1 (the second component) of the
reference split on `/`, falling back to `parentFolder` when the
reference has no `/`; under the expected well-formedness side
conditions (non-empty output root and tile folder, neither introducing
its own separators) the destination is
`outputRoot/Data/tileFolder/<basename of reference>`; and for reference
`a/Tile_7/sub.json` with empty parent folder the destination is
`outputRoot/Data/Tile_7/sub.json`. -/
theorem C1_ruleA_amended :
    (∀ out bp pf url, pyEndsWith url (".json") = true →
      out.data ≠ [] → out.data.getLast? ≠ some '/' →
      (specTileFolder pf url).data ≠ [] →
      (specTileFolder pf url).data.head? ≠ some '/' →
      (specTileFolder pf url).data.getLast? ≠ some '/' →
      (pyBasename url).data.head? ≠ some '/' →
      local_path_for out bp pf url
        = out ++ ("/Data/") ++ specTileFolder pf url ++ ("/") ++ pyBasename url)
    ∧ local_path_for ("outR") ("") ("") ("a/Tile_7/sub.json") = ("outR/Data/Tile_7/sub.json") := by
  constructor
  · intro out bp pf url hj h1 h2 h3 h4 h5 h6
    simp only [local_path_for, hj, if_pos]
    exact pyJoin_chain out (specTileFolder pf url) (pyBasename url) h1 h2 h3 h4 h5 h6
  · decide

theorem C1_ruleA_amended_witness :
    pyEndsWith ("x/Tile_3/t.json") (".json") = true
    ∧ local_path_for ("o2") ("bp") ("") ("x/Tile_3/t.json")
        = ("o2") ++ ("/Data/") ++ specTileFolder ("") ("x/Tile_3/t.json") ++ ("/")
          ++ pyBasename ("x/Tile_3/t.json") :=
  ⟨by decide,
   C1_ruleA_amended.1 ("o2") ("bp") ("") ("x/Tile_3/t.json") (by decide) (by decide)
     (by decide) (by decide) (by decide) (by decide) (by decide)⟩

/-- C2: the Fetcher resolves the remote URL as `base/Data/parentFolder/url`
when the parent folder context is non-empty and as `base/url` when it is
empty; in the empty case the `startswith('Data/')` branch and the
fallback branch coincide (the equation holds with no case split on
`pyStartsWith url "Data/"`), and `parentFolder = Tile_2` with reference
`x.b3dm` resolves to `{base}/Data/Tile_2/x.b3dm`. -/
theorem C2_url_resolution :
    (∀ base pf url, pf ≠ ("") →
      full_url_of base pf url = base ++ ("/Data/") ++ pf ++ ("/") ++ url)
    ∧ (∀ base pf url, pf = ("") → full_url_of base pf url = base ++ ("/") ++ url)
    ∧ full_url_of ("http://e") ("Tile_2") ("x.b3dm") = ("http://e/Data/Tile_2/x.b3dm") := by
  refine ⟨?_, ?_, by decide⟩
  · intro base pf url h
    simp [full_url_of, h]
  · intro base pf url h
    subst h
    simp [full_url_of]

theorem C2_url_resolution_witness :
    full_url_of ("b2") ("Tile_9") ("y.b3dm")
        = ("b2") ++ ("/Data/") ++ ("Tile_9") ++ ("/") ++ ("y.b3dm")
    ∧ full_url_of ("b2") ("") ("Data/z.b3dm") = ("b2") ++ ("/") ++ ("Data/z.b3dm") :=
  ⟨C2_url_resolution.1 ("b2") ("Tile_9") ("y.b3dm") (by decide),
   C2_url_resolution.2.1 ("b2") ("") ("Data/z.b3dm") rfl⟩

/-- C7: for a reference not ending in the manifest extension the local
destination is `basePath/<reference>` (one separator inserted; the
relative sub-path inside the reference is preserved verbatim), under the
side conditions that the reference is relative (does not begin with `/`,
as the data model requires of content references) and the base path is
non-empty and does not end in `/`; and reference `foo.b3dm` under
`o/Data/Tile_1` yields `o/Data/Tile_1/foo.b3dm`. -/
theorem C7_ruleB_dest :
    (∀ out bp pf url, pyEndsWith url (".json") = false →
      url.data.head? ≠ some '/' → bp.data ≠ [] → bp.data.getLast? ≠ some '/' →
      local_path_for out bp pf url = bp ++ ("/") ++ url)
    ∧ local_path_for ("o") ("o/Data/Tile_1") ("Tile_1") ("foo.b3dm")
        = ("o/Data/Tile_1/foo.b3dm") := by
  constructor
  · intro out bp pf url hj hu h1 h2
    simp only [local_path_for, hj, Bool.false_eq_true, if_false]
    exact pyJoin_norm bp url h1 h2 hu
  · decide

theorem C7_ruleB_dest_witness :
    pyEndsWith ("sub/q.b3dm") (".json") = false
    ∧ local_path_for ("o3") ("o3/Data/Tile_4") ("Tile_4") ("sub/q.b3dm")
        = ("o3/Data/Tile_4") ++ ("/") ++ ("sub/q.b3dm") :=
  ⟨by decide,
   C7_ruleB_dest.1 ("o3") ("o3/Data/Tile_4") ("Tile_4") ("sub/q.b3dm") (by decide) (by decide)
     (by decide) (by decide)⟩

/-- The idempotent short-circuit of `download_file` (lines 25-27): a
save path already in `downloaded_files` returns `True` with the state
(filesystem, dedup set, request trace, write trace) untouched. -/
theorem dl_mem (cfg : TilesCfg) (net : Net) (fuel : Nat) (url sp pf : String) (st : DlState)
    (h : sp ∈ st.downloaded_files) : download_file cfg net fuel url sp pf st = (true, st) := by
  cases fuel <;> simp [download_file, h]

/-- C5: a fetch for a local path already in DownloadedSet returns
success immediately and leaves the state identical — in particular the
request trace (no network activity), the filesystem and the write trace
are unchanged, and the URL resolution step is never reached. -/
theorem C5_dedup_short_circuit :
    ∀ (cfg : TilesCfg) (net : Net) (fuel : Nat) (url sp pf : String) (st : DlState),
      sp ∈ st.downloaded_files → download_file cfg net fuel url sp pf st = (true, st) :=
  fun cfg net fuel url sp pf st h => dl_mem cfg net fuel url sp pf st h

theorem C5_dedup_short_circuit_witness :
    ("p1") ∈ (⟨[("p1")], [], [], []⟩ : DlState).downloaded_files
    ∧ download_file ⟨("b"), ("o")⟩ netNone 4 ("u.b3dm") ("p1") ("") ⟨[("p1")], [], [], []⟩
        = (true, ⟨[("p1")], [], [], []⟩) :=
  ⟨by decide,
   C5_dedup_short_circuit ⟨("b"), ("o")⟩ netNone 4 ("u.b3dm") ("p1") ("")
     ⟨[("p1")], [], [], []⟩ (by decide)⟩

/-- C8: a manifest file that is on disk but unparseable makes
`process_json_file` return the state unchanged — no exception escapes
(the function is total on every input), nothing is downloaded or
written, and the rest of the traversal (which only sees this returned
state) is unaffected; only this manifest's subtree is abandoned. -/
theorem C8_malformed_manifest_graceful :
    ∀ (cfg : TilesCfg) (net : Net) (fuel : Nat) (jp : String) (st : DlState) (content : String),
      fsRead st.fs jp = some content →
      pyJsonLoads content = none →
      process_json_file cfg net fuel jp st = st := by
  intro cfg net fuel jp st content hr hp
  cases fuel with
  | zero => rfl
  | succ fuel => simp [process_json_file, hr, hp]

theorem C8_malformed_manifest_graceful_witness :
    fsRead (⟨[], [(("m.json"), ("not-json"))], [], []⟩ : DlState).fs ("m.json")
        = some ("not-json")
    ∧ process_json_file ⟨("b"), ("o")⟩ netNone 7 ("m.json")
        ⟨[], [(("m.json"), ("not-json"))], [], []⟩
        = ⟨[], [(("m.json"), ("not-json"))], [], []⟩ :=
  ⟨rfl,
   C8_malformed_manifest_graceful ⟨("b"), ("o")⟩ netNone 7 ("m.json")
     ⟨[], [(("m.json"), ("not-json"))], [], []⟩ ("not-json") rfl rfl⟩

/-- C4: the claim fails — `process_tileset` does not copy the root
manifest byte-for-byte; it writes `json.dump(json.load(f))`.  For the
input file bytes `'\x7b \x7d'` (an empty object with interior
whitespace) the written `out/tileset.json` holds `'\x7b\x7d'`, which
differs from the original bytes. -/
theorem C4_copy_not_verbatim :
    fsRead (process_tileset ("http://e") netNone 3 ("ts.json") ("out")
        ⟨[], [(("ts.json"), ("\x7b \x7d"))], [], []⟩).fs ("out/tileset.json")
      = some ("\x7b\x7d")
    ∧ ("\x7b\x7d" : String) ≠ ("\x7b \x7d") := by
  exact ⟨by rfl, by decide⟩

/-- C3: when every one of the 3 GET attempts for a reference fails,
`download_file` returns `False` and changes nothing but the request
trace (no file write, `downloaded_files` unchanged), and
`extract_urls_from_node` on a node carrying that reference goes on to
process the node's children exactly as if only the failed attempts had
been recorded — the failure never escapes the Walker. -/
theorem C3_fetch_failure_contained :
    ∀ (cfg : TilesCfg) (net : Net) (fuel : Nat) (url bp pf : String) (cs : PyArr) (st : DlState),
      net (full_url_of cfg.base pf url) 0 = none →
      net (full_url_of cfg.base pf url) 1 = none →
      net (full_url_of cfg.base pf url) 2 = none →
      local_path_for cfg.output_dir bp pf url ∉ st.downloaded_files →
      download_file cfg net (fuel + 1) url (local_path_for cfg.output_dir bp pf url) pf st
        = (false,
           { st with requests := st.requests ++ List.replicate 3 (full_url_of cfg.base pf url) })
      ∧ extract_urls_from_node cfg net (fuel + 2) (mkNode url cs) bp pf st
        = processChildren cfg net (fuel + 1) cs bp pf
            { st with requests := st.requests ++ List.replicate 3 (full_url_of cfg.base pf url) } := by
  intro cfg net fuel url bp pf cs st h0 h1 h2 hm
  have htr : tryGetTrace net (full_url_of cfg.base pf url) = (3, none) := by
    simp [tryGetTrace, h0, h1, h2]
  have hdl : download_file cfg net (fuel + 1) url (local_path_for cfg.output_dir bp pf url) pf st
      = (false,
         { st with requests := st.requests ++ List.replicate 3 (full_url_of cfg.base pf url) }) := by
    simp [download_file, hm, htr]
  refine ⟨hdl, ?_⟩
  have hn : nodeUrl (mkNode url cs) = some url := rfl
  have hc : nodeChildrenArr (mkNode url cs) = cs := rfl
  simp only [extract_urls_from_node, hn, hc, hdl]

theorem C3_fetch_failure_contained_witness :
    netNone (full_url_of ("b") ("") ("u.b3dm")) 0 = none
    ∧ (local_path_for ("o") ("o") ("") ("u.b3dm") ∉ stEmpty.downloaded_files)
    ∧ download_file ⟨("b"), ("o")⟩ netNone 1 ("u.b3dm") (local_path_for ("o") ("o") ("") ("u.b3dm"))
        ("") stEmpty
        = (false,
           { stEmpty with
              requests := stEmpty.requests ++ List.replicate 3 (full_url_of ("b") ("") ("u.b3dm")) })
    ∧ extract_urls_from_node ⟨("b"), ("o")⟩ netNone 2 (mkNode ("u.b3dm") PyArr.nil) ("o") ("") stEmpty
        = processChildren ⟨("b"), ("o")⟩ netNone 1 PyArr.nil ("o") ("")
            { stEmpty with
               requests := stEmpty.requests ++ List.replicate 3 (full_url_of ("b") ("") ("u.b3dm")) } :=
  ⟨rfl, by decide,
   (C3_fetch_failure_contained ⟨("b"), ("o")⟩ netNone 0 ("u.b3dm") ("o") ("") PyArr.nil stEmpty
      rfl rfl rfl (by decide)).1,
   (C3_fetch_failure_contained ⟨("b"), ("o")⟩ netNone 0 ("u.b3dm") ("o") ("") PyArr.nil stEmpty
      rfl rfl rfl (by decide)).2⟩

/-- C9: when the GET for a nested-manifest reference succeeds (some
attempt returns a body), `download_file` returns `True` regardless of
what the fetched manifest contains or what happens while processing it
recursively — the boolean reflects only this one transfer. -/
theorem C9_fetch_success_independent_of_subtree :
    ∀ (cfg : TilesCfg) (net : Net) (fuel : Nat) (url sp pf : String) (st : DlState) (c : String),
      pyEndsWith url (".json") = true →
      (tryGetTrace net (full_url_of cfg.base pf url)).2 = some c →
      (download_file cfg net (fuel + 1) url sp pf st).1 = true := by
  intro cfg net fuel url sp pf st c hj hs
  by_cases hm : sp ∈ st.downloaded_files
  · rw [dl_mem cfg net (fuel + 1) url sp pf st hm]
  · cases htr : tryGetTrace net (full_url_of cfg.base pf url) with
    | mk n res =>
      rw [htr] at hs
      simp only at hs
      subst hs
      simp [download_file, hm, htr, hj]

theorem C9_fetch_success_independent_of_subtree_witness :
    pyEndsWith ("m.json") (".json") = true
    ∧ (tryGetTrace netFlaky (full_url_of ("b") ("") ("m.json"))).2 = some ("not-json")
    ∧ (download_file ⟨("b"), ("o")⟩ netFlaky 3 ("m.json") ("o/m.json") ("") stEmpty).1 = true :=
  ⟨by decide, rfl,
   C9_fetch_success_independent_of_subtree ⟨("b"), ("o")⟩ netFlaky 2 ("m.json") ("o/m.json") ("")
     stEmpty ("not-json") (by decide) rfl⟩

/-- The fetcher invariant is preserved by every traversal operation:
proved for all four mutually recursive functions simultaneously, by
induction on the fuel. -/
theorem inv_preserved (cfg : TilesCfg) (net : Net) :
    ∀ fuel : Nat,
      (∀ url sp pf st, FetchInv st → FetchInv (download_file cfg net fuel url sp pf st).2)
      ∧ (∀ jp st, FetchInv st → FetchInv (process_json_file cfg net fuel jp st))
      ∧ (∀ node bp pf st, FetchInv st → FetchInv (extract_urls_from_node cfg net fuel node bp pf st))
      ∧ (∀ cs bp pf st, FetchInv st → FetchInv (processChildren cfg net fuel cs bp pf st)) := by
  intro fuel
  induction fuel with
  | zero =>
    refine ⟨?_, ?_, ?_, ?_⟩
    · intro url sp pf st h
      by_cases hm : sp ∈ st.downloaded_files
      · simpa [download_file, hm] using h
      · simpa [download_file, hm] using h
    · intro jp st h
      simpa [process_json_file] using h
    · intro node bp pf st h
      simpa [extract_urls_from_node] using h
    · intro cs bp pf st h
      simpa [processChildren] using h
  | succ fuel ih =>
    obtain ⟨ihd, ihp, ihe, ihc⟩ := ih
    refine ⟨?_, ?_, ?_, ?_⟩
    · intro url sp pf st h
      by_cases hm : sp ∈ st.downloaded_files
      · simpa [download_file, hm] using h
      · cases htr : tryGetTrace net (full_url_of cfg.base pf url) with
        | mk n res =>
          cases res with
          | none =>
            simp only [download_file, if_neg hm, htr]
            exact h
          | some content =>
            have hsp : sp ∉ st.writes := fun hw => hm (h.2 sp hw)
            have h2 : FetchInv
                { st with
                  requests := st.requests ++ List.replicate n (full_url_of cfg.base pf url)
                  fs := (sp, content) :: st.fs
                  downloaded_files := sp :: st.downloaded_files
                  writes := st.writes ++ [sp] } := by
              constructor
              · simp [FetchInv, List.nodup_append, h.1, hsp]
              · intro p hp
                rcases List.mem_append.mp hp with hl | hr
                · exact List.mem_cons_of_mem _ (h.2 p hl)
                · have : p = sp := List.mem_singleton.mp hr
                  subst this
                  exact List.mem_cons_self _ _
            cases hj : pyEndsWith url (".json") with
            | false =>
              simp only [download_file, if_neg hm, htr, hj]
              simpa using h2
            | true =>
              simp only [download_file, if_neg hm, htr, hj]
              simpa using ihp sp _ h2
    · intro jp st h
      simp only [process_json_file]
      cases hr : fsRead st.fs jp with
      | none => simpa [hr] using h
      | some content =>
        cases hp : pyJsonLoads content with
        | none => simpa [hr, hp] using h
        | some data =>
          cases data with
          | obj kvs =>
            simp only [hr, hp]
            exact ihe _ _ _ _ h
          | null => simpa [hr, hp] using h
          | bool b => simpa [hr, hp] using h
          | int n => simpa [hr, hp] using h
          | str s => simpa [hr, hp] using h
          | arr xs => simpa [hr, hp] using h
    · intro node bp pf st h
      cases hn : nodeUrl node with
      | none =>
        simp only [extract_urls_from_node, hn]
        exact ihc _ _ _ _ h
      | some url =>
        simp only [extract_urls_from_node, hn]
        exact ihc _ _ _ _ (ihd _ _ _ _ h)
    · intro cs bp pf st h
      cases cs with
      | nil => simpa [processChildren] using h
      | cons c cs2 =>
        simp only [processChildren]
        exact ihc _ _ _ _ (ihe _ _ _ _ h)

/-- C6: the run-wide write-once invariant.  If the fetcher state
satisfies `FetchInv` (its write trace has no duplicates and every
written path is in DownloadedSet) then any `download_file` call — and
through it the whole mutually recursive traversal it may trigger —
preserves it, because every successful write adds the path to
DownloadedSet; and any fetch for a path already in DownloadedSet
returns success with no write at all. -/
theorem C6_write_once_invariant :
    ∀ (cfg : TilesCfg) (net : Net) (fuel : Nat) (url sp pf : String) (st : DlState),
      (FetchInv st → FetchInv (download_file cfg net fuel url sp pf st).2)
      ∧ (sp ∈ st.downloaded_files → download_file cfg net fuel url sp pf st = (true, st)) := by
  intro cfg net fuel url sp pf st
  exact ⟨fun h => (inv_preserved cfg net fuel).1 url sp pf st h,
         fun hm => dl_mem cfg net fuel url sp pf st hm⟩

theorem C6_write_once_invariant_witness :
    FetchInv stTs
    ∧ FetchInv (download_file ⟨("http://e"), ("out")⟩ netA 5 ("a.b3dm") ("out/a.b3dm") ("") stTs).2
    ∧ (("q") ∈ (⟨[("q")], [], [], []⟩ : DlState).downloaded_files
       ∧ download_file ⟨("http://e"), ("out")⟩ netA 5 ("x.b3dm") ("q") ("")
           ⟨[("q")], [], [], []⟩ = (true, ⟨[("q")], [], [], []⟩)) :=
  ⟨⟨List.nodup_nil, fun p hp => absurd hp (List.not_mem_nil p)⟩,
   (C6_write_once_invariant ⟨("http://e"), ("out")⟩ netA 5 ("a.b3dm") ("out/a.b3dm") ("") stTs).1
     ⟨List.nodup_nil, fun p hp => absurd hp (List.not_mem_nil p)⟩,
   by decide,
   (C6_write_once_invariant ⟨("http://e"), ("out")⟩ netA 5 ("x.b3dm") ("q") ("")
     ⟨[("q")], [], [], []⟩).2 (by decide)⟩

/-- With an empty parent folder context both live branches of the URL
resolution produce `base/reference`. -/
theorem full_url_empty (base url : String) :
    full_url_of base ("") url = base ++ ("/") ++ url := by
  simp [full_url_of]

/-- Every request issued while walking a manifest-free (no nested
`.json` references) node tree with empty parent folder context is
`base/r` for some content reference `r` of the tree.  Proved for the
fetcher and the walker simultaneously by induction on the fuel. -/
theorem req_urls (cfg : TilesCfg) (net : Net) :
    ∀ fuel : Nat,
      (∀ url sp st, pyEndsWith url (".json") = false →
        ∀ u ∈ ((download_file cfg net fuel url sp ("") st).2).requests,
          u ∈ st.requests ∨ u = cfg.base ++ ("/") ++ url)
      ∧ (∀ node bp st, (∀ r ∈ refsOf fuel node, pyEndsWith r (".json") = false) →
        ∀ u ∈ (extract_urls_from_node cfg net fuel node bp ("") st).requests,
          u ∈ st.requests ∨ ∃ r, r ∈ refsOf fuel node ∧ u = cfg.base ++ ("/") ++ r)
      ∧ (∀ cs bp st, (∀ r ∈ refsOfArr fuel cs, pyEndsWith r (".json") = false) →
        ∀ u ∈ (processChildren cfg net fuel cs bp ("") st).requests,
          u ∈ st.requests ∨ ∃ r, r ∈ refsOfArr fuel cs ∧ u = cfg.base ++ ("/") ++ r) := by
  intro fuel
  induction fuel with
  | zero =>
    refine ⟨?_, ?_, ?_⟩
    · intro url sp st _ u hu
      by_cases hm : sp ∈ st.downloaded_files
      · simp only [download_file, if_pos hm] at hu
        exact Or.inl hu
      · simp only [download_file, if_neg hm] at hu
        exact Or.inl hu
    · intro node bp st _ u hu
      simp only [extract_urls_from_node] at hu
      exact Or.inl hu
    · intro cs bp st _ u hu
      simp only [processChildren] at hu
      exact Or.inl hu
  | succ fuel ih =>
    obtain ⟨ihd, ihe, ihc⟩ := ih
    refine ⟨?_, ?_, ?_⟩
    · intro url sp st hj u hu
      by_cases hm : sp ∈ st.downloaded_files
      · simp only [download_file, if_pos hm] at hu
        exact Or.inl hu
      · cases htr : tryGetTrace net (full_url_of cfg.base ("") url) with
        | mk n res =>
          cases res with
          | none =>
            simp only [download_file, if_neg hm, htr] at hu
            rcases List.mem_append.mp hu with hl | hr
            · exact Or.inl hl
            · exact Or.inr ((List.eq_of_mem_replicate hr).trans (full_url_empty cfg.base url))
          | some content =>
            simp only [download_file, if_neg hm, htr, hj] at hu
            rcases List.mem_append.mp hu with hl | hr
            · exact Or.inl hl
            · exact Or.inr ((List.eq_of_mem_replicate hr).trans (full_url_empty cfg.base url))
    · intro node bp st hfree u hu
      simp only [extract_urls_from_node] at hu
      cases hn : nodeUrl node with
      | none =>
        rw [hn] at hu
        rcases ihc (nodeChildrenArr node) bp st
            (fun r hr => hfree r (by simp [refsOf, hn]; exact hr)) u hu with hl | ⟨r, hr, he⟩
        · exact Or.inl hl
        · exact Or.inr ⟨r, by simp [refsOf, hn]; exact hr, he⟩
      | some url =>
        rw [hn] at hu
        have hurl : url ∈ refsOf (fuel + 1) node := by
          simp [refsOf, hn]
        rcases ihc (nodeChildrenArr node) bp _
            (fun r hr => hfree r (by simp [refsOf, hn]; exact Or.inr hr)) u hu with hl | ⟨r, hr, he⟩
        · rcases ihd url (local_path_for cfg.output_dir bp ("") url) st (hfree url hurl) u hl with
            hl2 | he2
          · exact Or.inl hl2
          · exact Or.inr ⟨url, hurl, he2⟩
        · exact Or.inr ⟨r, by simp [refsOf, hn]; exact Or.inr hr, he⟩
    · intro cs bp st hfree u hu
      cases cs with
      | nil =>
        simp only [processChildren] at hu
        exact Or.inl hu
      | cons c cs2 =>
        simp only [processChildren] at hu
        rcases ihc cs2 bp _ (fun r hr => hfree r (by simp [refsOfArr]; exact Or.inr hr)) u hu with
          hl | ⟨r, hr, he⟩
        · rcases ihe c bp st (fun r hr => hfree r (by simp [refsOfArr]; exact Or.inl hr)) u hl with
            hl2 | ⟨r, hr, he⟩
          · exact Or.inl hl2
          · exact Or.inr ⟨r, by simp [refsOfArr]; exact Or.inl hr, he⟩
        · exact Or.inr ⟨r, by simp [refsOfArr]; exact Or.inr hr, he⟩

/-- C10: `process_tileset` walks the root manifest's node tree with the
empty string as parent folder context, so (for a tree of direct binary
references — no nested manifests, whose own references would not be
direct) every remote URL requested during the run is `base/r` for some
content reference `r` of the root tree, never `base/Data/<dir>/r`. -/
theorem C10_root_parent_folder_empty :
    ∀ (base : String) (net : Net) (fuel : Nat) (tspath out : String) (st : DlState)
      (content : String) (data : PyJson),
      fsRead st.fs tspath = some content →
      pyJsonLoads content = some data →
      st.requests = [] →
      (∀ r ∈ refsOf fuel (rootOf data), pyEndsWith r (".json") = false) →
      ∀ u ∈ (process_tileset base net fuel tspath out st).requests,
        ∃ r, r ∈ refsOf fuel (rootOf data) ∧ u = base ++ ("/") ++ r := by
  intro base net fuel tspath out st content data hread hparse hreq hfree u hu
  simp only [process_tileset, hread, hparse] at hu
  cases data with
  | obj kvs =>
    rcases ((req_urls ⟨base, out⟩ net fuel).2.1
        ((objLookup kvs ("root")).getD (PyJson.obj PyObj.nil)) out
        { st with fs := (pyJoin out ("tileset.json"), pyJsonDumps (PyJson.obj kvs)) :: st.fs }
        hfree u hu) with hl | ⟨r, hr, he⟩
    · rw [hreq] at hl
      exact absurd hl (List.not_mem_nil u)
    · exact ⟨r, hr, he⟩
  | null => rw [hreq] at hu; exact absurd hu (List.not_mem_nil u)
  | bool b => rw [hreq] at hu; exact absurd hu (List.not_mem_nil u)
  | int n => rw [hreq] at hu; exact absurd hu (List.not_mem_nil u)
  | str s => rw [hreq] at hu; exact absurd hu (List.not_mem_nil u)
  | arr xs => rw [hreq] at hu; exact absurd hu (List.not_mem_nil u)

theorem C10_root_parent_folder_empty_witness :
    pyJsonLoads tsContent = some tsData
    ∧ ("http://e/a.b3dm") ∈ (process_tileset ("http://e") netA 5 ("ts.json") ("out") stTs).requests
    ∧ ∃ r, r ∈ refsOf 5 (rootOf tsData) ∧ ("http://e/a.b3dm") = ("http://e") ++ ("/") ++ r :=
  ⟨rfl, by decide,
   C10_root_parent_folder_empty ("http://e") netA 5 ("ts.json") ("out") stTs tsContent tsData
     rfl rfl rfl (by decide) ("http://e/a.b3dm") (by decide)⟩
